import Mathlib

/-!
Formal model of the medical-simulation backend's session store and
scoring/feedback engine, shallowly embedded from the TypeScript sources
(`src/backend/src/store/sessionStore` compiled JS, and
`src/backend/src/feedback/scoringRules.ts`, `feedbackTemplates.ts`,
`analyzeSession.ts`).

Conventions of the embedding:
* JavaScript `number` timestamps and counters are modelled as `Nat`
  (all realistic values are non-negative integers); fractional JS
  arithmetic (`Math.round`, percentage ratios) is modelled over `ℚ`
  exactly.  Division by zero, which in JS produces `Infinity`/`NaN`
  whose comparisons are all false, is modelled branch-faithfully at
  each site (see the comments there).
* JS `undefined`-able fields are `Option`; JS truthiness of an
  optional number (`undefined` and `0` both falsy) is `optTruthy`.
* The in-memory `Map<string, Session>` is an association list keyed
  by `Nat` session ids; `setStore`/`removeStore`/`lookupS` mirror
  `Map.set`/`Map.delete`/`Map.get` (ids are unique in a `Map`).
* Throwing operations return `Except StoreError Unit` paired with the
  post-call store (exceptions in the JS leave prior mutations, such as
  lazy TTL eviction performed by `getSession`, in place).
* Each mutating operation receives the current wall-clock time `now`
  explicitly; the several `Date.now()` reads inside one JS call are
  modelled as a single instant.
* The external LLM classification oracle is passed as an explicit
  parameter: `none` models a thrown/failed API call (the source then
  falls back to deterministic string matching); unparseable oracle
  output is already folded to `INCORRECT`/`INAPPROPRIATE` by the
  source itself, so the parameter ranges over the parsed labels only.
-/

/-! ## JavaScript string primitives -/

/-- JS regex `\w`: ASCII letters, digits and underscore. -/
def isWordChar (c : Char) : Bool := c.isAlphanum || c == '_'

/-- JS regex `\s` (whitespace); the source only ever feeds ASCII text. -/
def isWsChar (c : Char) : Bool := c.isWhitespace

/-- JS `String.prototype.includes`: `p` occurs as a contiguous substring of `t`. -/
def inclL (t p : List Char) : Bool := t.tails.any (fun suf => p.isPrefixOf suf)

/-- JS `text.includes(pat)` on strings. -/
def incl (t pat : String) : Bool := inclL t.data pat.data

/-- Helper for `collapseWs`: the flag records whether the previous character
was whitespace (in which case further whitespace is dropped rather than
emitted). -/
def collapseGo : Bool → List Char → List Char
  | _, [] => []
  | prevWs, c :: rest =>
    if isWsChar c then
      if prevWs then collapseGo true rest else ' ' :: collapseGo true rest
    else c :: collapseGo false rest

/-- JS `replace(/\s+/g, ' ')`: replace every maximal whitespace run by one space. -/
def collapseWs (l : List Char) : List Char := collapseGo false l

/-- JS `toLowerCase()` (ASCII, which is all the source ever feeds it). -/
def jsToLower (s : String) : String := String.mk (s.data.map Char.toLower)

/-- JS `trim()`: strip leading and trailing whitespace. -/
def jsTrim (s : String) : String :=
  String.mk (((s.data.dropWhile isWsChar).reverse.dropWhile isWsChar).reverse)

/-- JS `Array.prototype.join(sep)`. -/
def joinSep (sep : String) : List String → String
  | [] => ""
  | x :: xs => xs.foldl (fun acc y => acc ++ sep ++ y) x

/-- JS `split(' ')` on a character list: split at every single space, keeping empties. -/
def splitSpace : List Char → List String
  | [] => [""]
  | c :: rest =>
    match splitSpace rest with
    | [] => [String.mk [c]]
    | g :: gs =>
      if c == ' ' then "" :: g :: gs else String.mk (c :: g.data) :: gs

/-- `containsDiagnosis`'s normalisation: `replace(/[^\w\s]/g, ' ')` then
`replace(/\s+/g, ' ')` (scoringRules.ts lines 346-347). -/
def normDiag (s : String) : String :=
  String.mk (collapseWs (s.data.map (fun c => if isWordChar c || isWsChar c then c else ' ')))

/-- `matchesAction`'s normalisation: `toLowerCase().replace(/[_\s-]/g, ' ')`
(scoringRules.ts lines 468-469); note no whitespace collapsing here. -/
def normAct (s : String) : String :=
  String.mk ((jsToLower s).data.map (fun c => if c == '_' || isWsChar c || c == '-' then ' ' else c))

/-- After the `|` of the intervention delimiter: `\s*[Ii]ntervention:`.
Returns the text following a successful match.  The regex `\s*` is greedy,
and no whitespace character can begin `[Ii]ntervention:`, so consuming the
whole whitespace run is exact. -/
def matchIntervTail (l : List Char) : Option (List Char) :=
  match l.dropWhile isWsChar with
  | [] => none
  | c :: r2 =>
    if (c == 'I' || c == 'i') && (r2.take 12 == "ntervention:".data) then
      some (r2.drop 12)
    else none

theorem matchIntervTail_length {l r : List Char} (h : matchIntervTail l = some r) :
    r.length < l.length + 1 := by
  have h2 : (l.dropWhile isWsChar).length ≤ l.length :=
    (List.dropWhile_suffix _).length_le
  unfold matchIntervTail at h
  split at h
  · exact absurd h (by simp)
  · next c r2 heq =>
    split at h
    · have h1 : r2.length + 1 ≤ l.length := by
        rw [← List.length_cons c r2, ← heq]; exact h2
      have h3 : r.length ≤ r2.length := by
        cases h; exact (r2.length_drop 12) ▸ Nat.sub_le _ _
      omega
    · exact absurd h (by simp)

/-- JS `split(/[|]\s*[Ii]ntervention:/)` on a character list, with explicit
fuel so the scan is structurally recursive (`matchIntervTail` only ever
returns a suffix of its input, so fuel `l.length` never runs out — the
`fuel = 0` arm is unreachable). -/
def splitIntervGo : ℕ → List Char → List (List Char)
  | _, [] => [[]]
  | 0, l => [l]
  | fuel + 1, c :: rest =>
    if c == '|' then
      match matchIntervTail rest with
      | some rem => [] :: splitIntervGo fuel rem
      | none =>
        match splitIntervGo fuel rest with
        | [] => [[c]]
        | g :: gs => (c :: g) :: gs
    else
      match splitIntervGo fuel rest with
      | [] => [[c]]
      | g :: gs => (c :: g) :: gs

/-- JS `diagnosisText.split(/[|]\s*[Ii]ntervention:/)`
(scoringRules.ts line 55 and line 384). -/
def splitInterv (s : String) : List String :=
  (splitIntervGo s.data.length s.data).map String.mk

/-- JS `Math.round`: round half away from zero is `⌊x + 1/2⌋` for the
half-up behaviour JS exhibits on all reals (`Math.round(-2.5) = -2`). -/
def jsRound (q : ℚ) : ℤ := ⌊q + 1/2⌋

/-- JS truthiness of an optional numeric field: `undefined` and `0` are falsy. -/
def optTruthy : Option ℕ → Bool
  | none => false
  | some n => !(n == 0)

/-! ## Data model (`session.types` / `case.types`) -/

inductive Role where
  | user
  | assistant
deriving DecidableEq, Repr

structure Message where
  role : Role
  content : String
deriving DecidableEq, Repr

/-- One entry of `session.actions`. -/
structure SessionAction where
  actionType : String
  timestamp : ℕ
  details : Option String := none
  result : Option String := none
deriving DecidableEq, Repr

/-- A case's red flag (`{action, timeWindow?, consequence?}`). -/
structure RedFlag where
  action : String
  timeWindow : Option ℕ := none
  consequence : Option String := none
deriving DecidableEq, Repr

/-- The slice of the immutable case definition the store and scorer read. -/
structure MedicalCase where
  caseId : String
  chiefComplaint : String
  primaryDiagnosis : String
  differentials : List String
  criticalActions : List String
  redFlags : List RedFlag
  revealHpi : String
  revealPmh : String
  revealMedications : String
  revealAllergies : String
  historyPmh : List String
deriving DecidableEq, Repr

/-- `session.revealedFacts`, initialised by `createSession`. -/
structure RevealedFacts where
  hpi : Bool
  pmh : List String
  medications : Bool
  allergies : Bool
  socialHistory : List String
  familyHistory : Bool
  physicalExam : List String
  diagnostics : List String
deriving DecidableEq, Repr

/-- The timing block of a feedback result. -/
structure FeedbackTiming where
  timeLimitSec : ℕ
  actualDurationSec : ℕ
  exceededBySec : Option ℕ
  timeUsedPercent : ℚ
deriving DecidableEq, Repr

/-- The per-category breakdown `analyzeSession` returns. -/
structure FeedbackBreakdown where
  diagnosis : ℤ
  criticalActions : ℤ
  communication : ℤ
  efficiency : ℤ
deriving DecidableEq, Repr

/-- The result object `analyzeSession` constructs. -/
structure FeedbackResult where
  summaryScore : ℤ
  breakdown : FeedbackBreakdown
  timing : FeedbackTiming
  whatWentWell : List String
  missed : List String
  redFlagsMissed : List String
  recommendations : List String
deriving DecidableEq, Repr

/-- The mutable session aggregate owned by the session store. -/
structure Session where
  sessionId : ℕ
  caseId : String
  level : ℕ
  userName : String
  caseData : MedicalCase
  messages : List Message
  revealedFacts : RevealedFacts
  actions : List SessionAction
  createdAt : ℕ
  updatedAt : ℕ
  timeLimitSec : Option ℕ
  maxTurns : Option ℕ
  currentTurn : ℕ
  isActive : Bool
  endedAt : Option ℕ := none
  submittedDiagnosis : Option String := none
  feedbackResult : Option FeedbackResult := none
deriving DecidableEq, Repr

/-- Parameters of `createSession`. -/
structure CreateSessionParams where
  caseId : String
  level : ℕ
  userName : String
  timeLimitSec : Option ℕ := none
  maxTurns : Option ℕ := none
deriving DecidableEq, Repr

/-- Count of user-authored messages (the spec's `count(messages where role=user)`). -/
def userMessageCount (msgs : List Message) : ℕ :=
  (msgs.filter (fun m => m.role == Role.user)).length

/-! ## Session store (`store/sessionStore`) -/

/-- Default TTL: 2 hours of inactivity, in milliseconds. -/
def DEFAULT_TTL_MS : ℕ := 2 * 60 * 60 * 1000

/-- Background sweep interval (15 minutes, ms); the timer itself is scheduling,
outside the functional model. -/
def CLEANUP_INTERVAL_MS : ℕ := 15 * 60 * 1000

/-- The in-memory `Map<sessionId, Session>`, keyed by ids (which a `Map`
keeps unique); modelled as an association list in insertion order. -/
abbrev Store := List (ℕ × Session)

/-- `sessions.get(id)`. -/
def lookupS : Store → ℕ → Option Session
  | [], _ => none
  | (k, v) :: rest, id => if k = id then some v else lookupS rest id

/-- `sessions.set(id, s)`: replace in place, or append a new entry. -/
def setStore : Store → ℕ → Session → Store
  | [], id, s => [(id, s)]
  | (k, v) :: rest, id, s =>
    if k = id then (id, s) :: rest else (k, v) :: setStore rest id s

/-- `sessions.delete(id)` (ids are unique in a `Map`, so dropping every
entry with that key coincides with deleting the one entry). -/
def removeStore : Store → ℕ → Store
  | [], _ => []
  | (k, v) :: rest, id =>
    if k = id then removeStore rest id else (k, v) :: removeStore rest id

inductive StoreError where
  | notFound
  | sessionEnded
deriving DecidableEq, Repr

/-- The in-place mutation `markEnded` performs on a found session:
`isActive = false; endedAt = now; updatedAt = now;` and, when the
`diagnosis` argument is truthy (present and non-empty), store its
trimmed text as `submittedDiagnosis`. -/
def endSession (s : Session) (now : ℕ) (diagnosis : Option String) : Session :=
  { s with
    isActive := false
    endedAt := some now
    updatedAt := now
    submittedDiagnosis :=
      match diagnosis with
      | some d => if d ≠ "" then some (jsTrim d) else s.submittedDiagnosis
      | none => s.submittedDiagnosis }

/-- `markEnded(sessionId, diagnosis?)` (sessionStore.js lines 202-215):
returns silently if the id is unknown, and otherwise unconditionally
applies `endSession` — there is no check of `isActive`. -/
def markEnded (st : Store) (now : ℕ) (id : ℕ) (diagnosis : Option String) : Store :=
  match lookupS st id with
  | none => st
  | some s => setStore st id (endSession s now diagnosis)

/-- `getSession(sessionId)` (sessionStore.js lines 119-140): `null` when the
id is unknown; lazy TTL eviction when `now - updatedAt > DEFAULT_TTL_MS`;
when a truthy `timeLimitSec` has elapsed on an active session, end it and
re-read.  The JS re-reads via a recursive `getSession` call; after
`markEnded` the session has `updatedAt = now` (within TTL, as the TTL is
positive) and `isActive = false`, so that recursion is exactly one plain
lookup, which is how it is written here. -/
def getSession (st : Store) (now : ℕ) (id : ℕ) : Option Session × Store :=
  match lookupS st id with
  | none => (none, st)
  | some s =>
    if DEFAULT_TTL_MS < now - s.updatedAt then
      (none, removeStore st id)
    else if optTruthy s.timeLimitSec && s.isActive then
      if s.timeLimitSec.getD 0 < (now - s.createdAt) / 1000 then
        let st2 := markEnded st now id none
        (lookupS st2 id, st2)
      else (some s, st)
    else (some s, st)

/-- `createSession(params, caseData)` (sessionStore.js lines 79-112).  The
fresh `randomUUID()` is passed in as `id`; `revealedFacts` is initialised
from the case's always-reveal rules. -/
def createSession (st : Store) (now : ℕ) (id : ℕ)
    (params : CreateSessionParams) (caseData : MedicalCase) : Session × Store :=
  let revealedFacts : RevealedFacts :=
    { hpi := params.caseId == caseData.caseId && caseData.revealHpi == "always"
      pmh := if caseData.revealPmh == "always" then caseData.historyPmh else []
      medications := caseData.revealMedications == "always"
      allergies := caseData.revealAllergies == "always"
      socialHistory := []
      familyHistory := false
      physicalExam := []
      diagnostics := [] }
  let session : Session :=
    { sessionId := id
      caseId := params.caseId
      level := params.level
      userName := params.userName
      caseData := caseData
      messages := []
      revealedFacts := revealedFacts
      actions := []
      createdAt := now
      updatedAt := now
      timeLimitSec := params.timeLimitSec
      maxTurns := params.maxTurns
      currentTurn := 0
      isActive := true }
  (session, setStore st id session)

/-- The in-place mutations a successful `appendMessage` performs on the
session object: push the message; for a user message bump `currentTurn`
and, when a truthy `maxTurns` has been reached (`currentTurn >= maxTurns`),
apply `markEnded`'s mutation; finally `updatedAt = Date.now()`. -/
def appendTransform (s : Session) (now : ℕ) (role : Role) (text : String) : Session :=
  let s1 := { s with messages := s.messages ++ [⟨role, text⟩] }
  let s2 := if role = Role.user then { s1 with currentTurn := s1.currentTurn + 1 } else s1
  let s3 :=
    if role = Role.user ∧ optTruthy s2.maxTurns ∧ s2.maxTurns.getD 0 ≤ s2.currentTurn
    then endSession s2 now none else s2
  { s3 with updatedAt := now }

/-- `appendMessage(sessionId, role, text)` (sessionStore.js lines 148-169):
`NotFound` when `getSession` yields nothing (whose lazy eviction, if any,
persists), `SessionEnded` when inactive; otherwise apply
`appendTransform` to the found session. -/
def appendMessage (st : Store) (now : ℕ) (id : ℕ) (role : Role) (text : String) :
    Except StoreError Unit × Store :=
  match getSession st now id with
  | (none, st1) => (.error .notFound, st1)
  | (some s, st1) =>
    if s.isActive = false then (.error .sessionEnded, st1)
    else (.ok (), setStore st1 id (appendTransform s now role text))

/-- `recordAction(sessionId, actionType, details?, result?)`
(sessionStore.js lines 178-195). -/
def recordAction (st : Store) (now : ℕ) (id : ℕ) (actionType : String)
    (details result : Option String) : Except StoreError Unit × Store :=
  match getSession st now id with
  | (none, st1) => (.error .notFound, st1)
  | (some s, st1) =>
    if s.isActive = false then (.error .sessionEnded, st1)
    else
      let s1 := { s with
        actions := s.actions ++ [⟨actionType, now, details, result⟩]
        updatedAt := now }
      (.ok (), setStore st1 id s1)

/-- `storeFeedback(sessionId, feedbackResult)` (sessionStore.js lines
222-230); note it reads the map directly, with no TTL check. -/
def storeFeedback (st : Store) (now : ℕ) (id : ℕ) (fb : FeedbackResult) :
    Except StoreError Unit × Store :=
  match lookupS st id with
  | none => (.error .notFound, st)
  | some s =>
    (.ok (), setStore st id { s with feedbackResult := some fb, updatedAt := now })

/-- The second `if` of `cleanupExpiredSessions`'s loop body: proactively end
any active session whose truthy explicit time limit has elapsed
(sessionStore.js lines 59-66). -/
def cleanupStepTL (now : ℕ) (acc1 : Store) (entry : ℕ × Session) : Store :=
  if optTruthy entry.2.timeLimitSec && entry.2.isActive then
    if entry.2.timeLimitSec.getD 0 < (now - entry.2.createdAt) / 1000 then
      markEnded acc1 now entry.1 none
    else acc1
  else acc1

/-- One iteration of `cleanupExpiredSessions`'s loop body over a map entry
(sessionStore.js lines 52-67): evict on TTL expiry, then the time-limit
check of `cleanupStepTL`. -/
def cleanupStep (now : ℕ) (acc : Store) (entry : ℕ × Session) : Store :=
  cleanupStepTL now
    (if DEFAULT_TTL_MS < now - entry.2.updatedAt then removeStore acc entry.1 else acc) entry

/-- `cleanupExpiredSessions()` (sessionStore.js lines 49-71): sweep every
entry.  Each iteration only touches its own entry's id, so reading the
conditions from the iteration snapshot matches the live JS map. -/
def cleanupExpiredSessions (st : Store) (now : ℕ) : Store :=
  st.foldl (cleanupStep now) st

/-! ## Scoring rules (`feedback/scoringRules.ts`) -/

/-- Per-level default time limits in seconds (scoringRules.ts lines 13-17);
the `level` field is typed `1|2|3` in the source. -/
def TIME_LIMITS : ℕ → ℕ
  | 1 => 5 * 60
  | 2 => 7 * 60
  | 3 => 10 * 60
  | _ => 0

def MAX_DIAGNOSIS_CORRECTNESS_SCORE : ℤ := 20
def MAX_INTERVENTION_SCORE : ℤ := 5
def MAX_CRITICAL_ACTIONS_SCORE : ℤ := 25
def MAX_COMMUNICATION_SCORE : ℤ := 20
def MAX_EFFICIENCY_SCORE : ℤ := 30

/-- `getTimeLimit`: `session.timeLimitSec ?? TIME_LIMITS[session.level]`
(nullish coalescing, so an explicit `0` is kept). -/
def getTimeLimit (s : Session) : ℕ :=
  match s.timeLimitSec with
  | some t => t
  | none => TIME_LIMITS s.level

/-- `getSessionDuration`: `Math.floor(((endedAt ?? Date.now()) - createdAt) / 1000)`. -/
def getSessionDuration (s : Session) (now : ℕ) : ℕ :=
  (s.endedAt.getD now - s.createdAt) / 1000

/-- `containsDiagnosis(text, diagnosis)` (scoringRules.ts lines 344-361):
normalised substring match, or else every key word (length > 3) of the
diagnosis present in the text. -/
def containsDiagnosis (text diagnosis : String) : Bool :=
  let normalizedText := normDiag text
  let normalizedDiagnosis := normDiag diagnosis
  if incl normalizedText normalizedDiagnosis then true
  else
    let keyWords := (splitSpace normalizedDiagnosis.data).filter (fun w => 3 < w.length)
    !keyWords.isEmpty && keyWords.all (fun word => incl normalizedText word)

/-- The fixed label set of the diagnosis classification oracle
(`compareDiagnosisWithLLM`); unparseable output is already mapped to
`INCORRECT` by the source, and a thrown call is the `none` of the
`Option DiagLabel` oracle parameter below. -/
inductive DiagLabel where
  | PRIMARY
  | DIFFERENTIAL
  | INCORRECT
deriving DecidableEq, Repr

/-- The fixed label set of the intervention oracle (`scoreIntervention`);
unparseable output is already mapped to `INAPPROPRIATE` by the source,
and a thrown call (which the source scores 0) is the `none` of the
`Option IntervLabel` parameter below. -/
inductive IntervLabel where
  | APPROPRIATE
  | PARTIAL
  | INAPPROPRIATE
deriving DecidableEq, Repr

/-- `scoreDiagnosisCorrectnessFallback` (scoringRules.ts lines 121-161):
deterministic string matching used whenever the oracle is unavailable. -/
def scoreDiagnosisCorrectnessFallback (diagnosisOnly primaryDiagnosis : String)
    (differentials : List String) : ℤ :=
  let diagnosisOnlyLower := jsToLower diagnosisOnly
  let primaryDiagnosisLower := jsToLower primaryDiagnosis
  let differentialsLower := differentials.map jsToLower
  if containsDiagnosis diagnosisOnlyLower primaryDiagnosisLower then
    MAX_DIAGNOSIS_CORRECTNESS_SCORE
  else
    let miTerms := ["nstemi", "stemi", "myocardial infarction", "mi"]
    let isMIPrimary := miTerms.any (fun term => incl primaryDiagnosisLower term)
    let isHeartAttack := incl diagnosisOnlyLower "heart attack" ||
      diagnosisOnlyLower == "mi" || incl diagnosisOnlyLower "myocardial infarction"
    if isMIPrimary && isHeartAttack then MAX_DIAGNOSIS_CORRECTNESS_SCORE
    else
      match differentialsLower.find? (fun diff => containsDiagnosis diagnosisOnlyLower diff) with
      | some _ => 12  -- Math.floor(20 * 0.6)
      | none => 0

/-- `scoreIntervention`'s outcome (scoringRules.ts lines 166-252) as a
function of the oracle's parsed label; a thrown API call scores 0. -/
def interventionPoints : Option IntervLabel → ℤ
  | some .APPROPRIATE => MAX_INTERVENTION_SCORE
  | some .PARTIAL => 3  -- Math.floor(5 * 0.6)
  | some .INAPPROPRIATE => 0
  | none => 0

/-- The per-part result of `scoreDiagnosis`. -/
structure DiagScore where
  total : ℤ
  correctness : ℤ
  intervention : ℤ
deriving DecidableEq, Repr

/-- `scoreDiagnosis(session, caseData)` (scoringRules.ts lines 48-116).
When `submittedDiagnosis` is truthy it is used (lower-cased); otherwise the
source concatenates the lower-cased user messages and scores those.  The
text is split on the intervention delimiter; an empty diagnosis part scores
`{total: 0, correctness: 0, intervention: 0}`.  `oracleDiag` is the outcome
of `compareDiagnosisWithLLM` (`none` = call threw, triggering the
deterministic fallback) and `oracleInterv` the intervention oracle's. -/
def scoreDiagnosis (s : Session) (caseData : MedicalCase)
    (oracleDiag : Option DiagLabel) (oracleInterv : Option IntervLabel) : DiagScore :=
  let diagnosisText :=
    match s.submittedDiagnosis with
    | some d =>
      if d ≠ "" then jsToLower d
      else joinSep " "
        ((s.messages.filter (fun m => m.role == Role.user)).map (fun m => jsToLower m.content))
    | none => joinSep " "
        ((s.messages.filter (fun m => m.role == Role.user)).map (fun m => jsToLower m.content))
  let parts := splitInterv diagnosisText
  let diagnosisOnly := jsTrim (parts.headD "")
  let interventionText := if parts.length > 1 then jsTrim (parts.getD 1 "") else ""
  if diagnosisOnly = "" then ⟨0, 0, 0⟩
  else
    let primaryDiagnosis := caseData.primaryDiagnosis
    let differentials := caseData.differentials
    let diagnosisCorrectnessScore :=
      match oracleDiag with
      | some .PRIMARY => MAX_DIAGNOSIS_CORRECTNESS_SCORE
      | some .DIFFERENTIAL => 12  -- Math.floor(20 * 0.6)
      | some .INCORRECT => 0
      | none => scoreDiagnosisCorrectnessFallback diagnosisOnly primaryDiagnosis differentials
    let interventionScore :=
      if interventionText ≠ "" then interventionPoints oracleInterv else 0
    ⟨diagnosisCorrectnessScore + interventionScore, diagnosisCorrectnessScore, interventionScore⟩

/-- The hand-curated synonym table of `matchesAction`, in object insertion
order (scoringRules.ts lines 488-497). -/
def medicalTerms : List (String × List String) :=
  [("aspirin", ["aspirin", "asa"]),
   ("ekg", ["ekg", "ecg", "electrocardiogram"]),
   ("ecg", ["ekg", "ecg", "electrocardiogram"]),
   ("troponin", ["troponin", "trop"]),
   ("nitroglycerin", ["nitro", "nitroglycerin", "gtn"]),
   ("iv", ["iv", "intravenous", "access"]),
   ("monitoring", ["monitoring", "monitor", "cardiac"]),
   ("cardiology", ["cardiology", "cardiac", "consult"])]

/-- The action-verb table of `matchesAction` (scoringRules.ts lines 521-525). -/
def actionVerbs : List (String × List String) :=
  [("give", ["give", "gave", "administer", "administered", "provide"]),
   ("order", ["order", "ordered", "ordering", "request", "requested"]),
   ("obtain", ["obtain", "ordered", "get", "request"])]

/-- Stop words skipped when extracting key words (scoringRules.ts line 472). -/
def skipWords : List String :=
  ["the", "a", "an", "and", "or", "within", "minutes", "obtain", "get"]

/-- `matchesAction(actionType, criticalAction)` (scoringRules.ts lines
467-542); the source's sequential early-`return true`s are the `||`-chain
here.  Note the final verb rule requires the critical action and the
action type to share a medical term verbatim (it ignores the synonym
variations). -/
def matchesAction (actionType criticalAction : String) : Bool :=
  let normalizedAction := normAct actionType
  let normalizedCritical := normAct criticalAction
  let keyWords := (splitSpace normalizedCritical.data).filter
    (fun w => 2 < w.length && !(skipWords.contains w))
  if keyWords.isEmpty then
    incl normalizedAction normalizedCritical || incl normalizedCritical normalizedAction
  else
    (keyWords.all (fun word => incl normalizedAction word)) ||
    (medicalTerms.any (fun tv =>
      incl normalizedCritical tv.1 && tv.2.any (fun variant => incl normalizedAction variant))) ||
    (medicalTerms.any (fun tv =>
      incl normalizedAction tv.1 && tv.2.any (fun variant => incl normalizedCritical variant))) ||
    (actionVerbs.any (fun vv =>
      incl normalizedCritical vv.1 && vv.2.any (fun variant => incl normalizedAction variant) &&
      medicalTerms.any (fun tv =>
        incl normalizedCritical tv.1 && incl normalizedAction tv.1)))

/-- The result of `scoreCriticalActions`. -/
structure CriticalActionsResult where
  score : ℤ
  performed : List String
  missed : List String
deriving DecidableEq, Repr

/-- The intervention clause of the raw `submittedDiagnosis`, as extracted by
`scoreCriticalActions` (scoringRules.ts lines 382-388): only a truthy
submission is split, and `parts[1]` is trimmed and lower-cased. -/
def criticalInterventionText (s : Session) : String :=
  match s.submittedDiagnosis with
  | some d =>
    if d ≠ "" then
      let parts := splitInterv d
      if parts.length > 1 then jsToLower (jsTrim (parts.getD 1 "")) else ""
    else ""
  | none => ""

/-- Whether one critical action counts as performed: matched by a logged
action, or mentioned in a non-empty intervention clause
(scoringRules.ts lines 393-406). -/
def criticalActionPerformed (s : Session) (interventionText : String)
    (criticalAction : String) : Bool :=
  s.actions.any (fun action => matchesAction action.actionType criticalAction) ||
  (interventionText ≠ "" && matchesAction interventionText criticalAction)

/-- `scoreCriticalActions(session, caseData)` (scoringRules.ts lines
371-417): full credit when the case defines no critical actions, otherwise
`Math.round(performed * (25 / total))`. -/
def scoreCriticalActions (s : Session) (caseData : MedicalCase) : CriticalActionsResult :=
  let criticalActions := caseData.criticalActions
  if criticalActions = [] then ⟨MAX_CRITICAL_ACTIONS_SCORE, [], []⟩
  else
    let interventionText := criticalInterventionText s
    let performed := criticalActions.filter (criticalActionPerformed s interventionText)
    let missed := criticalActions.filter (fun ca => !criticalActionPerformed s interventionText ca)
    let pointsPerAction : ℚ := (MAX_CRITICAL_ACTIONS_SCORE : ℚ) / criticalActions.length
    ⟨jsRound (performed.length * pointsPerAction), performed, missed⟩

/-- A missed red flag surfaced to the feedback layer. -/
structure MissedRedFlag where
  action : String
  consequence : Option String
deriving DecidableEq, Repr

/-- `scoreRedFlags(session, caseData)` (scoringRules.ts lines 423-462):
each red flag never performed, or (for a truthy time window) performed
only after `timeWindow` minutes from creation, is reported missed. -/
def scoreRedFlags (s : Session) (caseData : MedicalCase) : List MissedRedFlag :=
  caseData.redFlags.foldr (fun redFlag missed =>
    let matchingActions := s.actions.filter (fun action =>
      matchesAction action.actionType redFlag.action)
    if matchingActions = [] then
      ⟨redFlag.action, redFlag.consequence⟩ :: missed
    else if optTruthy redFlag.timeWindow then
      let timeWindowMs := redFlag.timeWindow.getD 0 * 60 * 1000
      let performedOnTime := matchingActions.any (fun action =>
        action.timestamp - s.createdAt ≤ timeWindowMs)
      if !performedOnTime then
        ⟨redFlag.action ++ " (performed late)", redFlag.consequence⟩ :: missed
      else missed
    else missed) []

/-- `scoreCommunication(session, caseData)` (scoringRules.ts lines 547-578):
five additive keyword checks over the concatenated lower-cased user
messages, capped at 20. -/
def scoreCommunication (s : Session) : ℤ :=
  let userMessages := s.messages.filter (fun m => m.role == Role.user)
  let allText := joinSep " " (userMessages.map (fun m => jsToLower m.content))
  let painKeywords := ["where", "pain", "hurt", "radiate", "radiation", "quality",
    "sharp", "dull", "pressure"]
  let pmhKeywords := ["past medical", "history", "previous", "conditions",
    "medical history", "pmh"]
  let medKeywords := ["medications", "meds", "drugs", "allergies", "allergic", "taking any"]
  let empathyKeywords := ["how are you", "feel", "worried", "concerned", "understand", "sorry"]
  let score : ℤ :=
    (if painKeywords.any (fun k => incl allText k) then 5 else 0) +
    (if pmhKeywords.any (fun k => incl allText k) then 3 else 0) +
    (if medKeywords.any (fun k => incl allText k) then 3 else 0) +
    (if 3 ≤ userMessages.length then 4 else 0) +
    (if empathyKeywords.any (fun k => incl allText k) then 5 else 0)
  min score MAX_COMMUNICATION_SCORE

/-- `scoreActionOrdering(session)` (scoringRules.ts lines 615-624). -/
def scoreActionOrdering (s : Session) : ℤ :=
  let actionCount := s.actions.length
  if actionCount = 0 then 0
  else if 3 ≤ actionCount ∧ actionCount ≤ 10 then 5
  else if 10 < actionCount then 3
  else 2

/-- `scoreEfficiency(session)` (scoringRules.ts lines 584-610): a step
function of `timeUsedPercent = duration / timeLimit * 100` plus the action
ordering bonus, capped at 30.  When `timeLimit = 0`, the JS ratio is
`Infinity` (or `NaN` for `0/0`) and every `<=` test is false, so the time
score is 0; that degenerate branch is written out explicitly. -/
def scoreEfficiency (s : Session) (now : ℕ) : ℤ :=
  let timeLimit := getTimeLimit s
  let duration := getSessionDuration s now
  let timeScore : ℤ :=
    if timeLimit = 0 then 0
    else
      let timeUsedPercent : ℚ := (duration : ℚ) / (timeLimit : ℚ) * 100
      if timeUsedPercent ≤ 50 then 20
      else if timeUsedPercent ≤ 75 then 18
      else if timeUsedPercent ≤ 100 then 15
      else if timeUsedPercent ≤ 120 then 10
      else if timeUsedPercent ≤ 150 then 5
      else 0
  min (timeScore + scoreActionOrdering s) MAX_EFFICIENCY_SCORE

/-- The scoring context assembled by `calculateScoringContext`
(scoringRules.ts lines 629-655). -/
structure ScoringContext where
  diagnosisScore : ℤ
  diagnosisCorrectnessScore : ℤ
  interventionScore : ℤ
  criticalActionsScore : ℤ
  communicationScore : ℤ
  efficiencyScore : ℤ
  performedCriticalActions : List String
  missedCriticalActions : List String
  missedRedFlags : List MissedRedFlag
  timeLimit : ℕ
  duration : ℕ
deriving DecidableEq, Repr

/-- `calculateScoringContext(session, caseData)`. -/
def calculateScoringContext (s : Session) (caseData : MedicalCase)
    (oracleDiag : Option DiagLabel) (oracleInterv : Option IntervLabel) (now : ℕ) :
    ScoringContext :=
  let diagnosisResult := scoreDiagnosis s caseData oracleDiag oracleInterv
  let criticalActionsResult := scoreCriticalActions s caseData
  { diagnosisScore := diagnosisResult.total
    diagnosisCorrectnessScore := diagnosisResult.correctness
    interventionScore := diagnosisResult.intervention
    criticalActionsScore := criticalActionsResult.score
    communicationScore := scoreCommunication s
    efficiencyScore := scoreEfficiency s now
    performedCriticalActions := criticalActionsResult.performed
    missedCriticalActions := criticalActionsResult.missed
    missedRedFlags := scoreRedFlags s caseData
    timeLimit := getTimeLimit s
    duration := getSessionDuration s now }

/-! ## Feedback templates (`feedback/feedbackTemplates.ts`) and the
session analyzer (`feedback/analyzeSession.ts`) -/

/-- An apostrophe (U+0027), for template text. -/
def apos : String := String.singleton (Char.ofNat 39)

/-- JS truthiness of an optional string (`undefined` and `""` falsy). -/
def strTruthy : Option String → Bool
  | none => false
  | some s => s ≠ ""

/-- `generateWhatWentWell(context, caseData)` (feedbackTemplates.ts lines
12-57); the sequential `items.push` calls are list concatenation, and the
ratio test `timeUsedPercent <= 75` is false in JS when `timeLimit = 0`
(`Infinity`/`NaN`). -/
def generateWhatWentWell (context : ScoringContext) (caseData : MedicalCase) : List String :=
  let items :=
    (if 20 ≤ context.diagnosisScore then
      ["Correctly identified the primary diagnosis: " ++ caseData.primaryDiagnosis]
     else if 10 ≤ context.diagnosisScore then
      ["Considered appropriate differential diagnoses in your clinical assessment"]
     else []) ++
    (if 0 < context.performedCriticalActions.length then
      if context.performedCriticalActions.length = caseData.criticalActions.length then
        ["Completed all critical interventions and diagnostic workup"]
      else
        ["Performed critical interventions such as: " ++
          context.performedCriticalActions.headD ""] ++
        (if 1 < context.performedCriticalActions.length then
          ["Completed " ++ toString context.performedCriticalActions.length ++ " out of " ++
            toString caseData.criticalActions.length ++
            " critical interventions in the management plan"]
         else [])
     else []) ++
    (if 15 ≤ context.communicationScore then
      ["Demonstrated excellent history-taking and clinical communication skills"]
     else if 10 ≤ context.communicationScore then
      ["Asked clinically relevant questions during the patient interview"]
     else []) ++
    (if context.timeLimit ≠ 0 ∧ (context.duration : ℚ) / (context.timeLimit : ℚ) * 100 ≤ 75 then
      ["Managed the case efficiently within the clinical time constraints"]
     else [])
  if items = [] then ["Completed the case session"] else items

/-- `generateMissed(context, caseData)` (feedbackTemplates.ts lines 62-84). -/
def generateMissed (context : ScoringContext) (caseData : MedicalCase) : List String :=
  (context.missedCriticalActions.map (fun a => "Missed critical intervention: " ++ a)) ++
  (if context.communicationScore < 10 then
    ["Incomplete history-taking - consider asking about pain characteristics (location, radiation, quality), past medical history (PMH), medications, and associated symptoms"]
   else []) ++
  (if context.diagnosisScore = 0 then
    ["Did not identify the correct primary diagnosis: " ++ caseData.primaryDiagnosis]
   else [])

/-- `generateRedFlagsMissed(context)` (feedbackTemplates.ts lines 89-96). -/
def generateRedFlagsMissed (context : ScoringContext) : List String :=
  context.missedRedFlags.map (fun redFlag =>
    match redFlag.consequence with
    | some c => if c ≠ "" then redFlag.action ++ " - " ++ c else redFlag.action
    | none => redFlag.action)

/-- `generateRecommendations(context, caseData)` (feedbackTemplates.ts
lines 101-166).  The JS overtime test `timeUsedPercent > 100` holds with
`timeLimit = 0` exactly when `duration > 0` (`Infinity > 100`;
`NaN > 100` is false). -/
def generateRecommendations (context : ScoringContext) (caseData : MedicalCase) : List String :=
  let overtime :=
    if context.timeLimit = 0 then 0 < context.duration
    else 100 < (context.duration : ℚ) / (context.timeLimit : ℚ) * 100
  let recommendations :=
    (if overtime then
      let exceededBy := context.duration - context.timeLimit
      let exceededByMinutes := (exceededBy + 59) / 60  -- Math.ceil(exceededBy / 60)
      let timeLimitMinutes := context.timeLimit / 60   -- Math.floor
      ["Try to work more efficiently - you exceeded the " ++ toString timeLimitMinutes ++
        "-minute time limit by " ++ toString exceededByMinutes ++ " minute" ++
        (if 1 < exceededByMinutes then "s" else "") ++ ". Focus on critical actions first."]
     else []) ++
    (if 0 < context.missedCriticalActions.length then
      ["For patients presenting with " ++ jsToLower caseData.chiefComplaint ++
        ", ensure you include: " ++ context.missedCriticalActions.headD "" ++
        " as part of your initial management plan"]
     else []) ++
    (context.missedRedFlags.filterMap (fun redFlag =>
      match redFlag.consequence with
      | some c =>
        if c ≠ "" then
          some (redFlag.action ++ " is a time-sensitive intervention - " ++ jsToLower c ++
            " if delayed")
        else none
      | none => none)) ++
    (if context.communicationScore < 10 then
      ["Enhance your history-taking by systematically evaluating: pain characteristics (location, radiation, quality, severity), associated symptoms, past medical history (PMH), current medications, and allergies. This comprehensive approach improves diagnostic accuracy."]
     else []) ++
    (if context.diagnosisScore < 15 then
      ["Review the clinical presentation carefully. The primary diagnosis was " ++
        caseData.primaryDiagnosis ++ ". Integrate the patient" ++ apos ++
        "s history, physical examination findings, and diagnostic workup to reach the correct diagnosis."]
     else []) ++
    (if 20 ≤ context.diagnosisScore ∧ context.missedCriticalActions = [] ∧
        context.missedRedFlags = [] then
      ["Excellent clinical performance! Continue to practice maintaining efficiency while ensuring comprehensive patient assessment and appropriate interventions."]
     else [])
  if recommendations = [] then
    ["Good clinical performance overall. Continue practicing to refine your diagnostic reasoning, history-taking skills, and intervention planning."]
  else recommendations

/-- `analyzeSession(session, caseData)` (analyzeSession.ts lines 31-78):
compute the scoring context once, derive
`summaryScore = Math.min(100, Math.round(sum of the four sub-scores))`,
the timing block, and the four feedback lists.  With `timeLimit = 0` the
JS `timeUsedPercent` is non-finite; it is modelled as 0 (no claim reads
it on that degenerate input). -/
def analyzeSession (s : Session) (caseData : MedicalCase)
    (oracleDiag : Option DiagLabel) (oracleInterv : Option IntervLabel) (now : ℕ) :
    FeedbackResult :=
  let context := calculateScoringContext s caseData oracleDiag oracleInterv now
  let summaryScore := min 100 (jsRound ((context.diagnosisScore : ℚ) +
    (context.criticalActionsScore : ℚ) + (context.communicationScore : ℚ) +
    (context.efficiencyScore : ℚ)))
  let timeLimit := context.timeLimit
  let duration := context.duration
  let timeUsedPercent : ℚ :=
    if timeLimit = 0 then 0 else (duration : ℚ) / (timeLimit : ℚ) * 100
  let exceededBySec : Option ℕ :=
    if timeLimit < duration then some (duration - timeLimit) else none
  { summaryScore := summaryScore
    breakdown :=
      { diagnosis := context.diagnosisScore
        criticalActions := context.criticalActionsScore
        communication := context.communicationScore
        efficiency := context.efficiencyScore }
    timing :=
      { timeLimitSec := timeLimit
        actualDurationSec := duration
        exceededBySec := exceededBySec
        timeUsedPercent := (jsRound (timeUsedPercent * 10) : ℚ) / 10 }
    whatWentWell := generateWhatWentWell context caseData
    missed := generateMissed context caseData
    redFlagsMissed := generateRedFlagsMissed context
    recommendations := generateRecommendations context caseData }

/-! ## Operation traces over the store -/

/-- One invocation of a store operation, tagged with the wall-clock time at
which it runs.  `create`'s `id` stands for the fresh `randomUUID()`. -/
inductive Op where
  | create (now id : ℕ) (params : CreateSessionParams) (caseData : MedicalCase)
  | append (now id : ℕ) (role : Role) (text : String)
  | record (now id : ℕ) (actionType : String) (details result : Option String)
  | markEnd (now id : ℕ) (diagnosis : Option String)
  | feedback (now id : ℕ) (result : FeedbackResult)
  | getS (now id : ℕ)
  | sweep (now : ℕ)

/-- The store reached after one operation (return values and errors are
dropped; all store mutations, including the lazy evictions performed by a
failing call, are kept). -/
def applyOp (st : Store) : Op → Store
  | .create now id params caseData => (createSession st now id params caseData).2
  | .append now id role text => (appendMessage st now id role text).2
  | .record now id actionType details result => (recordAction st now id actionType details result).2
  | .markEnd now id diagnosis => markEnded st now id diagnosis
  | .feedback now id result => (storeFeedback st now id result).2
  | .getS now id => (getSession st now id).2
  | .sweep now => cleanupExpiredSessions st now

/-- The store reached from `st` by a sequence of operations. -/
def runOps (st : Store) (ops : List Op) : Store := ops.foldl applyOp st

/-- The session id freshly allocated by a `create` operation, if any. -/
def createdId : Op → Option ℕ
  | .create _ id _ _ => some id
  | _ => none

/-! ## Store lemmas -/

theorem lookupS_setStore_self (st : Store) (id : ℕ) (s : Session) :
    lookupS (setStore st id s) id = some s := by
  induction st with
  | nil => simp [setStore, lookupS]
  | cons p rest ih =>
    obtain ⟨k, v⟩ := p
    by_cases h : k = id
    · simp [setStore, lookupS, h]
    · simpa [setStore, lookupS, h] using ih

theorem lookupS_setStore_ne (st : Store) (id j : ℕ) (s : Session) (h : j ≠ id) :
    lookupS (setStore st id s) j = lookupS st j := by
  induction st with
  | nil => simp [setStore, lookupS, Ne.symm h]
  | cons p rest ih =>
    obtain ⟨k, v⟩ := p
    by_cases hp : k = id
    · have hj : k ≠ j := by omega
      simp [setStore, lookupS, hp, Ne.symm h, hj]
    · by_cases hj : k = j
      · simp [setStore, lookupS, hp, hj, h]
      · simpa [setStore, lookupS, hp, hj] using ih

theorem lookupS_removeStore_self (st : Store) (id : ℕ) :
    lookupS (removeStore st id) id = none := by
  induction st with
  | nil => simp [removeStore, lookupS]
  | cons p rest ih =>
    obtain ⟨k, v⟩ := p
    by_cases h : k = id
    · simpa [removeStore, lookupS, h] using ih
    · simpa [removeStore, lookupS, h] using ih

theorem lookupS_removeStore_ne (st : Store) (id j : ℕ) (h : j ≠ id) :
    lookupS (removeStore st id) j = lookupS st j := by
  induction st with
  | nil => simp [removeStore, lookupS]
  | cons p rest ih =>
    obtain ⟨k, v⟩ := p
    by_cases hp : k = id
    · simpa [removeStore, lookupS, hp, Ne.symm h] using ih
    · by_cases hj : k = j
      · simp [removeStore, lookupS, hp, hj, h]
      · simpa [removeStore, lookupS, hp, hj] using ih

deriving instance DecidableEq for Except

/-! ## Session and store invariants -/

/-- The per-session invariant behind the spec's turn-counting and
turn-cap properties: `currentTurn` counts the user messages, and with a
positive `maxTurns` cap the user-message count never exceeds the cap and
hitting the cap forces the session inactive. -/
def SessionInv (s : Session) : Prop :=
  s.currentTurn = userMessageCount s.messages ∧
  ∀ m : ℕ, s.maxTurns = some m → 1 ≤ m →
    userMessageCount s.messages ≤ m ∧ (userMessageCount s.messages = m → s.isActive = false)

/-- Every session resident in the store satisfies `SessionInv`. -/
def StoreInv (st : Store) : Prop :=
  ∀ id s, lookupS st id = some s → SessionInv s

theorem userMessageCount_append (msgs : List Message) (m : Message) :
    userMessageCount (msgs ++ [m]) =
      userMessageCount msgs + (if m.role = Role.user then 1 else 0) := by
  by_cases h : m.role = Role.user <;>
    simp [userMessageCount, List.filter_append, h]

theorem sessionInv_endSession {s : Session} (now : ℕ) (d : Option String)
    (h : SessionInv s) : SessionInv (endSession s now d) := by
  obtain ⟨h1, h2⟩ := h
  exact ⟨h1, fun m hm h1m => ⟨(h2 m hm h1m).1, fun _ => rfl⟩⟩

theorem storeInv_setStore {st : Store} {id : ℕ} {s : Session}
    (hst : StoreInv st) (hs : SessionInv s) : StoreInv (setStore st id s) := by
  intro j s' hj
  by_cases h : j = id
  · subst h
    rw [lookupS_setStore_self] at hj
    cases hj
    exact hs
  · rw [lookupS_setStore_ne st id j s h] at hj
    exact hst j s' hj

theorem storeInv_removeStore {st : Store} (id : ℕ) (hst : StoreInv st) :
    StoreInv (removeStore st id) := by
  intro j s' hj
  by_cases h : j = id
  · subst h
    rw [lookupS_removeStore_self] at hj
    cases hj
  · rw [lookupS_removeStore_ne st id j h] at hj
    exact hst j s' hj

theorem storeInv_markEnded {st : Store} (now id : ℕ) (d : Option String)
    (hst : StoreInv st) : StoreInv (markEnded st now id d) := by
  unfold markEnded
  cases hl : lookupS st id with
  | none => exact hst
  | some s => exact storeInv_setStore hst (sessionInv_endSession now d (hst id s hl))

theorem storeInv_getSession_snd {st : Store} (now id : ℕ) (hst : StoreInv st) :
    StoreInv (getSession st now id).2 := by
  unfold getSession
  cases hl : lookupS st id with
  | none => exact hst
  | some s =>
    dsimp only
    split
    · exact storeInv_removeStore id hst
    · split
      · split
        · exact storeInv_markEnded now id none hst
        · exact hst
      · exact hst

theorem sessionInv_getSession_fst {st : Store} {now id : ℕ} {s : Session}
    (hst : StoreInv st) (h : (getSession st now id).1 = some s) : SessionInv s := by
  unfold getSession at h
  cases hl : lookupS st id with
  | none => rw [hl] at h; cases h
  | some s0 =>
    rw [hl] at h
    dsimp only at h
    split at h
    · cases h
    · split at h
      · split at h
        · exact storeInv_markEnded now id none hst id s h
        · exact hst id s (hl.trans h)
      · exact hst id s (hl.trans h)

theorem appendTransform_eq (s : Session) (now : ℕ) (role : Role) (text : String) :
    appendTransform s now role text =
      { s with
        messages := s.messages ++ [⟨role, text⟩]
        currentTurn := if role = Role.user then s.currentTurn + 1 else s.currentTurn
        isActive :=
          if role = Role.user ∧ optTruthy s.maxTurns ∧
              s.maxTurns.getD 0 ≤ s.currentTurn + 1 then false else s.isActive
        endedAt :=
          if role = Role.user ∧ optTruthy s.maxTurns ∧
              s.maxTurns.getD 0 ≤ s.currentTurn + 1 then some now else s.endedAt
        updatedAt := now } := by
  obtain ⟨sid, cid, lv, un, cd, msgs, rf, acts, ca, ua, tls, mt, ct, ia, ea, sd, fr⟩ := s
  cases role with
  | user =>
    by_cases hc : optTruthy mt = true ∧ mt.getD 0 ≤ ct + 1
    · simp [appendTransform, endSession, hc]
    · simp [appendTransform, endSession, hc]
  | assistant => simp [appendTransform, endSession]

theorem sessionInv_appendTransform {s : Session} (now : ℕ) (role : Role) (text : String)
    (h : SessionInv s) (hact : s.isActive = true) :
    SessionInv (appendTransform s now role text) := by
  obtain ⟨h1, h2⟩ := h
  rw [appendTransform_eq]
  constructor
  · cases role with
    | user => simp [userMessageCount_append, h1]
    | assistant => simp [userMessageCount_append, h1]
  · intro m hm h1m
    have hmt : s.maxTurns = some m := hm
    obtain ⟨hle, hcap⟩ := h2 m hmt h1m
    have hne : userMessageCount s.messages ≠ m := by
      intro hc
      rw [hcap hc] at hact
      cases hact
    have hlt : userMessageCount s.messages < m := lt_of_le_of_ne hle hne
    cases role with
    | assistant =>
      refine ⟨by simpa [userMessageCount_append] using hle, fun hc => ?_⟩
      rw [userMessageCount_append] at hc
      simp at hc
      exact absurd hc hne
    | user =>
      constructor
      · show userMessageCount (s.messages ++ [⟨Role.user, text⟩]) ≤ m
        rw [userMessageCount_append]
        simp
        omega
      · intro hc
        show (if Role.user = Role.user ∧ optTruthy s.maxTurns = true ∧
            s.maxTurns.getD 0 ≤ s.currentTurn + 1 then false else s.isActive) = false
        rw [userMessageCount_append] at hc
        simp at hc
        rw [if_pos ?_]
        refine ⟨rfl, ?_, ?_⟩
        · rw [hmt]
          simp [optTruthy]
          omega
        · rw [hmt, Option.getD_some, h1]
          omega

theorem storeInv_appendMessage {st : Store} (now id : ℕ) (role : Role) (text : String)
    (hst : StoreInv st) : StoreInv (appendMessage st now id role text).2 := by
  have hsnd := @storeInv_getSession_snd st now id hst
  unfold appendMessage
  split
  · next st1 heq =>
    rw [heq] at hsnd
    exact hsnd
  · next s st1 heq =>
    rw [heq] at hsnd
    split
    · exact hsnd
    · next hactv =>
      have hact : s.isActive = true := by
        cases hb : s.isActive with
        | false => exact absurd hb hactv
        | true => rfl
      have hs : SessionInv s :=
        sessionInv_getSession_fst hst (show (getSession st now id).1 = some s by rw [heq])
      exact storeInv_setStore hsnd (sessionInv_appendTransform now role text hs hact)

theorem storeInv_recordAction {st : Store} (now id : ℕ) (a : String) (d r : Option String)
    (hst : StoreInv st) : StoreInv (recordAction st now id a d r).2 := by
  have hsnd := @storeInv_getSession_snd st now id hst
  unfold recordAction
  split
  · next st1 heq =>
    rw [heq] at hsnd
    exact hsnd
  · next s st1 heq =>
    rw [heq] at hsnd
    split
    · exact hsnd
    · have hs : SessionInv s :=
        sessionInv_getSession_fst hst (show (getSession st now id).1 = some s by rw [heq])
      exact storeInv_setStore hsnd hs

theorem storeInv_storeFeedback {st : Store} (now id : ℕ) (fb : FeedbackResult)
    (hst : StoreInv st) : StoreInv (storeFeedback st now id fb).2 := by
  unfold storeFeedback
  split
  · exact hst
  · next s heq => exact storeInv_setStore hst (hst id s heq)

theorem sessionInv_createSession (st : Store) (now id : ℕ)
    (params : CreateSessionParams) (cd : MedicalCase) :
    SessionInv (createSession st now id params cd).1 := by
  refine ⟨rfl, fun m hm h1m => ⟨Nat.zero_le m, fun hc => ?_⟩⟩
  have h0 : userMessageCount (createSession st now id params cd).1.messages = 0 := rfl
  omega

theorem storeInv_createSession {st : Store} (now id : ℕ)
    (params : CreateSessionParams) (cd : MedicalCase) (hst : StoreInv st) :
    StoreInv (createSession st now id params cd).2 :=
  storeInv_setStore hst (sessionInv_createSession st now id params cd)

theorem storeInv_cleanupStepTL (now : ℕ) {acc1 : Store} (entry : ℕ × Session)
    (h : StoreInv acc1) : StoreInv (cleanupStepTL now acc1 entry) := by
  unfold cleanupStepTL
  split
  · split
    · exact storeInv_markEnded now entry.1 none h
    · exact h
  · exact h

theorem storeInv_cleanupStep (now : ℕ) {acc : Store} (entry : ℕ × Session)
    (h : StoreInv acc) : StoreInv (cleanupStep now acc entry) := by
  unfold cleanupStep
  apply storeInv_cleanupStepTL
  split
  · exact storeInv_removeStore entry.1 h
  · exact h

theorem storeInv_foldl_cleanup (now : ℕ) :
    ∀ (l : List (ℕ × Session)) (acc : Store), StoreInv acc →
      StoreInv (l.foldl (cleanupStep now) acc)
  | [], _, h => h
  | e :: rest, acc, h =>
    storeInv_foldl_cleanup now rest _ (storeInv_cleanupStep now e h)

theorem storeInv_cleanup {st : Store} (now : ℕ) (hst : StoreInv st) :
    StoreInv (cleanupExpiredSessions st now) :=
  storeInv_foldl_cleanup now st st hst

theorem storeInv_applyOp {st : Store} (op : Op) (hst : StoreInv st) :
    StoreInv (applyOp st op) := by
  cases op with
  | create now id params caseData => exact storeInv_createSession now id params caseData hst
  | append now id role text => exact storeInv_appendMessage now id role text hst
  | record now id a d r => exact storeInv_recordAction now id a d r hst
  | markEnd now id d => exact storeInv_markEnded now id d hst
  | feedback now id fb => exact storeInv_storeFeedback now id fb hst
  | getS now id => exact storeInv_getSession_snd now id hst
  | sweep now => exact storeInv_cleanup now hst

theorem storeInv_runOps' : ∀ (ops : List Op) (st : Store), StoreInv st → StoreInv (runOps st ops)
  | [], _, h => h
  | op :: rest, st, h => storeInv_runOps' rest (applyOp st op) (storeInv_applyOp op h)

/-- Every store reachable from the empty store satisfies the invariant. -/
theorem storeInv_reachable (ops : List Op) : StoreInv (runOps [] ops) :=
  storeInv_runOps' ops [] (fun _ _ h => by cases h)

/-! ## Behavioural lemmas about the store operations -/

theorem getSession_ended_within_ttl {st : Store} {now id : ℕ} {s : Session}
    (h : lookupS st id = some s) (hend : s.isActive = false)
    (httl : now - s.updatedAt ≤ DEFAULT_TTL_MS) :
    getSession st now id = (some s, st) := by
  unfold getSession
  rw [h]
  dsimp only
  rw [if_neg (by omega), if_neg (by simp [hend])]

theorem getSession_expired {st : Store} {now id : ℕ} {s : Session}
    (h : lookupS st id = some s) (hexp : DEFAULT_TTL_MS < now - s.updatedAt) :
    getSession st now id = (none, removeStore st id) := by
  unfold getSession
  rw [h]
  dsimp only
  rw [if_pos hexp]

theorem appendMessage_ended_within_ttl {st : Store} {now id : ℕ} {s : Session}
    (h : lookupS st id = some s) (hend : s.isActive = false)
    (httl : now - s.updatedAt ≤ DEFAULT_TTL_MS) (role : Role) (text : String) :
    appendMessage st now id role text = (.error .sessionEnded, st) := by
  unfold appendMessage
  rw [getSession_ended_within_ttl h hend httl]
  dsimp only
  rw [if_pos hend]

theorem recordAction_ended_within_ttl {st : Store} {now id : ℕ} {s : Session}
    (h : lookupS st id = some s) (hend : s.isActive = false)
    (httl : now - s.updatedAt ≤ DEFAULT_TTL_MS) (a : String) (d r : Option String) :
    recordAction st now id a d r = (.error .sessionEnded, st) := by
  unfold recordAction
  rw [getSession_ended_within_ttl h hend httl]
  dsimp only
  rw [if_pos hend]

/-- An inactive session rejects `appendMessage` unconditionally: either as
`SessionEnded`, or (when its TTL has also lapsed) as `NotFound`. -/
theorem appendMessage_inactive_fails {st : Store} {now id : ℕ} {s : Session}
    (h : lookupS st id = some s) (hend : s.isActive = false) (role : Role) (text : String) :
    (appendMessage st now id role text).1 = Except.error StoreError.notFound ∨
    (appendMessage st now id role text).1 = Except.error StoreError.sessionEnded := by
  by_cases httl : DEFAULT_TTL_MS < now - s.updatedAt
  · left
    unfold appendMessage
    rw [getSession_expired h httl]
  · right
    unfold appendMessage
    rw [getSession_ended_within_ttl h hend (by omega)]
    dsimp only
    rw [if_pos hend]

/-! ## Absence is preserved (no resurrection) -/

theorem lookupS_removeStore_none {st : Store} {id : ℕ} (j : ℕ)
    (h : lookupS st id = none) : lookupS (removeStore st j) id = none := by
  by_cases hij : id = j
  · subst hij
    exact lookupS_removeStore_self st id
  · rw [lookupS_removeStore_ne st j id hij]
    exact h

theorem lookupS_setStore_none {st : Store} {id : ℕ} {j : ℕ} (s : Session)
    (hij : id ≠ j) (h : lookupS st id = none) :
    lookupS (setStore st j s) id = none := by
  rw [lookupS_setStore_ne st j id s hij]
  exact h

theorem lookupS_markEnded_none {st : Store} {id : ℕ} (now j : ℕ) (d : Option String)
    (h : lookupS st id = none) : lookupS (markEnded st now j d) id = none := by
  unfold markEnded
  cases hl : lookupS st j with
  | none => exact h
  | some s =>
    have hij : id ≠ j := by
      intro he
      subst he
      rw [h] at hl
      cases hl
    exact lookupS_setStore_none _ hij h

theorem lookupS_getSession_none {st : Store} {id : ℕ} (now j : ℕ)
    (h : lookupS st id = none) : lookupS (getSession st now j).2 id = none := by
  unfold getSession
  cases hl : lookupS st j with
  | none => exact h
  | some s =>
    dsimp only
    split
    · exact lookupS_removeStore_none j h
    · split
      · split
        · exact lookupS_markEnded_none now j none h
        · exact h
      · exact h

theorem lookupS_appendMessage_none {st : Store} {id : ℕ} (now j : ℕ) (role : Role)
    (text : String) (h : lookupS st id = none) :
    lookupS (appendMessage st now j role text).2 id = none := by
  have hg := @lookupS_getSession_none st id now j h
  unfold appendMessage
  split
  · next st1 heq =>
    rw [heq] at hg
    exact hg
  · next s st1 heq =>
    rw [heq] at hg
    split
    · exact hg
    · have hij : id ≠ j := by
        intro he
        subst he
        unfold getSession at heq
        rw [h] at heq
        exact absurd (congrArg Prod.fst heq) (by simp)
      exact lookupS_setStore_none _ hij hg

theorem lookupS_recordAction_none {st : Store} {id : ℕ} (now j : ℕ) (a : String)
    (d r : Option String) (h : lookupS st id = none) :
    lookupS (recordAction st now j a d r).2 id = none := by
  have hg := @lookupS_getSession_none st id now j h
  unfold recordAction
  split
  · next st1 heq =>
    rw [heq] at hg
    exact hg
  · next s st1 heq =>
    rw [heq] at hg
    split
    · exact hg
    · have hij : id ≠ j := by
        intro he
        subst he
        unfold getSession at heq
        rw [h] at heq
        exact absurd (congrArg Prod.fst heq) (by simp)
      exact lookupS_setStore_none _ hij hg

theorem lookupS_storeFeedback_none {st : Store} {id : ℕ} (now j : ℕ) (fb : FeedbackResult)
    (h : lookupS st id = none) : lookupS (storeFeedback st now j fb).2 id = none := by
  unfold storeFeedback
  cases hl : lookupS st j with
  | none => exact h
  | some s =>
    dsimp only
    have hij : id ≠ j := by
      intro he
      subst he
      rw [h] at hl
      cases hl
    exact lookupS_setStore_none _ hij h

theorem lookupS_cleanupStep_none {acc : Store} {id : ℕ} (now : ℕ) (entry : ℕ × Session)
    (h : lookupS acc id = none) : lookupS (cleanupStep now acc entry) id = none := by
  unfold cleanupStep cleanupStepTL
  have h1 : lookupS (if DEFAULT_TTL_MS < now - entry.2.updatedAt
      then removeStore acc entry.1 else acc) id = none := by
    split
    · exact lookupS_removeStore_none entry.1 h
    · exact h
  split
  · split
    · exact lookupS_markEnded_none now entry.1 none h1
    · exact h1
  · exact h1

theorem lookupS_foldl_cleanup_none {id : ℕ} (now : ℕ) :
    ∀ (l : List (ℕ × Session)) (acc : Store), lookupS acc id = none →
      lookupS (l.foldl (cleanupStep now) acc) id = none
  | [], _, h => h
  | e :: rest, acc, h =>
    lookupS_foldl_cleanup_none now rest _ (lookupS_cleanupStep_none now e h)

theorem lookupS_cleanup_none {st : Store} {id : ℕ} (now : ℕ)
    (h : lookupS st id = none) : lookupS (cleanupExpiredSessions st now) id = none :=
  lookupS_foldl_cleanup_none now st st h

/-- An absent id stays absent under any operation that does not create it
(fresh `randomUUID`s never collide with a dead id). -/
theorem lookupS_applyOp_none {st : Store} {id : ℕ} (op : Op)
    (hfresh : createdId op ≠ some id) (h : lookupS st id = none) :
    lookupS (applyOp st op) id = none := by
  cases op with
  | create now j params caseData =>
    have hij : id ≠ j := by
      intro he
      subst he
      exact hfresh rfl
    exact lookupS_setStore_none _ hij h
  | append now j role text => exact lookupS_appendMessage_none now j role text h
  | record now j a d r => exact lookupS_recordAction_none now j a d r h
  | markEnd now j d => exact lookupS_markEnded_none now j d h
  | feedback now j fb => exact lookupS_storeFeedback_none now j fb h
  | getS now j => exact lookupS_getSession_none now j h
  | sweep now => exact lookupS_cleanup_none now h

theorem lookupS_runOps_none {id : ℕ} :
    ∀ (ops : List Op) (st : Store), (∀ op ∈ ops, createdId op ≠ some id) →
      lookupS st id = none → lookupS (runOps st ops) id = none
  | [], _, _, h => h
  | op :: rest, st, hfresh, h =>
    lookupS_runOps_none rest (applyOp st op)
      (fun o ho => hfresh o (List.mem_cons_of_mem op ho))
      (lookupS_applyOp_none op (hfresh op (List.mem_cons_self op rest)) h)

/-! ## The sweep does not touch a fresh zero-capped session -/

theorem lookupS_of_nodup_mem {st : Store} (hnd : (st.map Prod.fst).Nodup) {id : ℕ}
    {v : Session} (hmem : (id, v) ∈ st) : lookupS st id = some v := by
  induction st with
  | nil => cases hmem
  | cons p rest ih =>
    obtain ⟨k, w⟩ := p
    rcases List.mem_cons.mp hmem with hhd | htl
    · cases hhd
      simp [lookupS]
    · have hk : k ≠ id := by
        intro he
        apply (List.nodup_cons.mp hnd).1
        rw [he]
        have hin : (id, v).1 ∈ List.map Prod.fst rest := List.mem_map_of_mem Prod.fst htl
        exact hin
      simpa [lookupS, hk] using ih (List.nodup_cons.mp hnd).2 htl

theorem lookupS_markEnded_ne {st : Store} (now j : ℕ) (d : Option String) {id : ℕ}
    (hij : id ≠ j) : lookupS (markEnded st now j d) id = lookupS st id := by
  unfold markEnded
  cases hl : lookupS st j with
  | none => rfl
  | some s => exact lookupS_setStore_ne st j id _ hij

theorem lookupS_cleanupStep_keep {acc : Store} {id : ℕ} {s : Session} (now : ℕ)
    (entry : ℕ × Session) (h : lookupS acc id = some s)
    (hkey : entry.1 = id → entry.2 = s)
    (httl : ¬ DEFAULT_TTL_MS < now - s.updatedAt)
    (htl : s.timeLimitSec = some 0) :
    lookupS (cleanupStep now acc entry) id = some s := by
  unfold cleanupStep cleanupStepTL
  by_cases hk : entry.1 = id
  · have hv : entry.2 = s := hkey hk
    rw [hv, hk, if_neg httl, if_neg (by simp [htl, optTruthy])]
    exact h
  · have hij : id ≠ entry.1 := fun he => hk he.symm
    have h1 : lookupS (if DEFAULT_TTL_MS < now - entry.2.updatedAt
        then removeStore acc entry.1 else acc) id = some s := by
      split
      · rw [lookupS_removeStore_ne acc entry.1 id hij]
        exact h
      · exact h
    split
    · split
      · rw [lookupS_markEnded_ne now entry.1 none hij]
        exact h1
      · exact h1
    · exact h1

theorem lookupS_foldl_cleanup_keep {id : ℕ} {s : Session} (now : ℕ)
    (httl : ¬ DEFAULT_TTL_MS < now - s.updatedAt) (htl : s.timeLimitSec = some 0) :
    ∀ (l : List (ℕ × Session)) (acc : Store), lookupS acc id = some s →
      (∀ p ∈ l, p.1 = id → p.2 = s) →
      lookupS (l.foldl (cleanupStep now) acc) id = some s
  | [], _, h, _ => h
  | e :: rest, acc, h, hkeys =>
    lookupS_foldl_cleanup_keep now httl htl rest _
      (lookupS_cleanupStep_keep now e h (hkeys e (List.mem_cons_self e rest)) httl htl)
      (fun p hp => hkeys p (List.mem_cons_of_mem e hp))

/-- The background sweep leaves untouched a session that is within its TTL
and whose explicit time limit is the falsy `0`. -/
theorem lookupS_cleanup_keep {st : Store} {id : ℕ} {s : Session} (now : ℕ)
    (hnd : (st.map Prod.fst).Nodup) (h : lookupS st id = some s)
    (httl : now - s.updatedAt ≤ DEFAULT_TTL_MS) (htl : s.timeLimitSec = some 0) :
    lookupS (cleanupExpiredSessions st now) id = some s := by
  apply lookupS_foldl_cleanup_keep now (by omega) htl st st h
  intro p hp hk
  have hm : (id, p.2) ∈ st := by
    have : p = (id, p.2) := by
      obtain ⟨a, b⟩ := p
      cases hk
      rfl
    rw [← this]
    exact hp
  have := lookupS_of_nodup_mem hnd hm
  rw [h] at this
  exact (Option.some.injEq _ _ ▸ this).symm

/-- `getSession` never auto-ends a session whose explicit time limit is the
falsy `0`: the `session.timeLimitSec && session.isActive` guard fails. -/
theorem getSession_zero_timeLimit {st : Store} {now id : ℕ} {s : Session}
    (h : lookupS st id = some s) (httl : now - s.updatedAt ≤ DEFAULT_TTL_MS)
    (htl : s.timeLimitSec = some 0) : getSession st now id = (some s, st) := by
  unfold getSession
  rw [h]
  dsimp only
  rw [if_neg (by omega), if_neg (by simp [htl, optTruthy])]

/-- `getSession` hands back the session untouched whenever it is within its
TTL and the elapsed-time check does not fire — either because
`timeLimitSec` is falsy (`undefined` or `0`) or because a truthy limit has
not yet elapsed. -/
theorem getSession_active_no_timeout {st : Store} {now id : ℕ} {s : Session}
    (h : lookupS st id = some s) (httl : now - s.updatedAt ≤ DEFAULT_TTL_MS)
    (hnt : optTruthy s.timeLimitSec = false ∨
      (now - s.createdAt) / 1000 ≤ s.timeLimitSec.getD 0) :
    getSession st now id = (some s, st) := by
  unfold getSession
  rw [h]
  dsimp only
  rw [if_neg (by omega)]
  rcases hnt with hf | hle
  · rw [if_neg (by simp [hf])]
  · by_cases hcond : (optTruthy s.timeLimitSec && s.isActive) = true
    · rw [if_pos hcond, if_neg (by omega)]
    · rw [if_neg hcond]

/-- With `maxTurns = 0` the turn-limit check inside `appendMessage`'s
session mutation never fires: `isActive` is left exactly as it was, for any
role and any time. -/
theorem appendTransform_keeps_active_of_zero_maxTurns {s : Session}
    (hmt : s.maxTurns = some 0) (n : ℕ) (role : Role) (t : String) :
    (appendTransform s n role t).isActive = s.isActive := by
  rw [appendTransform_eq]
  show (if role = Role.user ∧ optTruthy s.maxTurns = true ∧
      s.maxTurns.getD 0 ≤ s.currentTurn + 1 then false else s.isActive) = s.isActive
  rw [if_neg (by simp [hmt, optTruthy])]

/-- With `maxTurns = 0` (and the other, independent checks not firing) a
user message is appended successfully, `currentTurn` is bumped, and the
session stays active: the zero turn cap never triggers the auto-end. -/
theorem appendMessage_zero_maxTurns {st : Store} {now id : ℕ} {s : Session} (text : String)
    (h : lookupS st id = some s) (hact : s.isActive = true)
    (hmt : s.maxTurns = some 0)
    (httl : now - s.updatedAt ≤ DEFAULT_TTL_MS)
    (hnt : optTruthy s.timeLimitSec = false ∨
      (now - s.createdAt) / 1000 ≤ s.timeLimitSec.getD 0) :
    appendMessage st now id Role.user text =
      (.ok (), setStore st id (appendTransform s now Role.user text)) ∧
    (appendTransform s now Role.user text).isActive = true ∧
    (appendTransform s now Role.user text).currentTurn = s.currentTurn + 1 := by
  refine ⟨?_, ?_, ?_⟩
  · unfold appendMessage
    rw [getSession_active_no_timeout h httl hnt]
    dsimp only
    rw [if_neg (by simp [hact])]
  · rw [appendTransform_keeps_active_of_zero_maxTurns hmt]
    exact hact
  · rw [appendTransform_eq]
    simp

/-! ## Arithmetic lemmas about the scoring functions -/

theorem jsRound_nonneg {q : ℚ} (h : 0 ≤ q) : 0 ≤ jsRound q := by
  unfold jsRound
  rw [Int.le_floor]
  push_cast
  linarith

theorem interventionPoints_nonneg (o : Option IntervLabel) : 0 ≤ interventionPoints o := by
  rcases o with _ | l
  · norm_num [interventionPoints]
  · cases l <;> norm_num [interventionPoints, MAX_INTERVENTION_SCORE]

theorem scoreDiagnosisCorrectnessFallback_nonneg (d p : String) (l : List String) :
    0 ≤ scoreDiagnosisCorrectnessFallback d p l := by
  simp only [scoreDiagnosisCorrectnessFallback]
  split_ifs <;> try norm_num [MAX_DIAGNOSIS_CORRECTNESS_SCORE]
  split <;> norm_num

theorem scoreDiagnosis_total_nonneg (s : Session) (cd : MedicalCase)
    (od : Option DiagLabel) (oi : Option IntervLabel) :
    0 ≤ (scoreDiagnosis s cd od oi).total := by
  simp only [scoreDiagnosis]
  split
  · norm_num
  · dsimp only
    apply add_nonneg
    · rcases od with _ | l
      · exact scoreDiagnosisCorrectnessFallback_nonneg _ _ _
      · cases l <;> norm_num [MAX_DIAGNOSIS_CORRECTNESS_SCORE]
    · split_ifs <;> first | exact interventionPoints_nonneg _ | norm_num

theorem scoreCriticalActions_score_nonneg (s : Session) (cd : MedicalCase) :
    0 ≤ (scoreCriticalActions s cd).score := by
  simp only [scoreCriticalActions]
  split
  · norm_num [MAX_CRITICAL_ACTIONS_SCORE]
  · dsimp only
    apply jsRound_nonneg
    exact mul_nonneg (Nat.cast_nonneg _)
      (div_nonneg (by norm_num [MAX_CRITICAL_ACTIONS_SCORE]) (Nat.cast_nonneg _))

theorem scoreCommunication_nonneg (s : Session) : 0 ≤ scoreCommunication s := by
  unfold scoreCommunication
  refine le_min ?_ (by norm_num [MAX_COMMUNICATION_SCORE])
  split_ifs <;> norm_num

theorem scoreEfficiency_nonneg (s : Session) (now : ℕ) : 0 ≤ scoreEfficiency s now := by
  simp only [scoreEfficiency, scoreActionOrdering]
  refine le_min (add_nonneg ?_ ?_) (by norm_num [MAX_EFFICIENCY_SCORE])
  · split_ifs <;> norm_num
  · split_ifs <;> norm_num

theorem scoreCriticalActions_empty {cd : MedicalCase} (s : Session)
    (h : cd.criticalActions = []) :
    scoreCriticalActions s cd = ⟨25, [], []⟩ := by
  unfold scoreCriticalActions
  rw [if_pos h]
  rfl

theorem scoreCriticalActions_score_eq {cd : MedicalCase} (s : Session)
    (h : cd.criticalActions ≠ []) :
    (scoreCriticalActions s cd).score =
      jsRound (((scoreCriticalActions s cd).performed.length : ℚ) /
        (cd.criticalActions.length : ℚ) * 25) := by
  unfold scoreCriticalActions
  rw [if_neg h]
  dsimp only
  congr 1
  push_cast [MAX_CRITICAL_ACTIONS_SCORE]
  ring

/-! ## The efficiency score against the spec's step function -/

/-- The spec's wording of the efficiency time component, as a step function
of the ratio `actualDurationSec / timeLimitSec` (≤50% → 20, ≤75% → 18,
≤100% → 15, ≤120% → 10, ≤150% → 5, else 0); stated for comparison with the
source's `scoreEfficiency`. -/
def specTimeComponent (duration timeLimit : ℕ) : ℤ :=
  if (duration : ℚ) / (timeLimit : ℚ) ≤ 1/2 then 20
  else if (duration : ℚ) / (timeLimit : ℚ) ≤ 3/4 then 18
  else if (duration : ℚ) / (timeLimit : ℚ) ≤ 1 then 15
  else if (duration : ℚ) / (timeLimit : ℚ) ≤ 6/5 then 10
  else if (duration : ℚ) / (timeLimit : ℚ) ≤ 3/2 then 5
  else 0

/-- The spec's wording of the action-count bonus: 0 actions → 0,
3–10 actions → 5, more than 10 → 3, else (1–2 actions) → 2. -/
def specActionBonus (n : ℕ) : ℤ :=
  if n = 0 then 0 else if 3 ≤ n ∧ n ≤ 10 then 5 else if 10 < n then 3 else 2

theorem scoreActionOrdering_eq_spec (s : Session) :
    scoreActionOrdering s = specActionBonus s.actions.length := rfl

theorem scoreEfficiency_eq_spec (s : Session) (now : ℕ) (h : getTimeLimit s ≠ 0) :
    scoreEfficiency s now =
      min (specTimeComponent (getSessionDuration s now) (getTimeLimit s) +
        specActionBonus s.actions.length) 30 := by
  rw [show (30:ℤ) = MAX_EFFICIENCY_SCORE from rfl, ← scoreActionOrdering_eq_spec s]
  simp only [scoreEfficiency, specTimeComponent]
  rw [if_neg h]
  congr 1
  congr 1
  split_ifs <;> first | rfl | linarith

/-! ## Concrete fixtures for the claim witnesses -/

/-- A small chest-pain case used by the concrete witnesses. -/
def caseX : MedicalCase :=
  { caseId := "case-chest-pain", chiefComplaint := "Chest pain",
    primaryDiagnosis := "NSTEMI", differentials := ["Angina"],
    criticalActions := ["Obtain EKG", "Give aspirin"],
    redFlags := [⟨"Obtain EKG", some 10, some "Delayed ischemia detection"⟩],
    revealHpi := "always", revealPmh := "level2", revealMedications := "always",
    revealAllergies := "always", historyPmh := ["hypertension"] }

def paramsX : CreateSessionParams :=
  { caseId := "case-chest-pain", level := 1, userName := "amy",
    timeLimitSec := some 300, maxTurns := some 2 }

/-- Creation parameters with a zero (falsy) turn cap but a real time limit. -/
def paramsMT0 : CreateSessionParams :=
  { caseId := "case-chest-pain", level := 1, userName := "bo",
    timeLimitSec := some 300, maxTurns := some 0 }

/-- Creation parameters with a real turn cap but a zero (falsy) time limit. -/
def paramsTL0 : CreateSessionParams :=
  { caseId := "case-chest-pain", level := 1, userName := "cy",
    timeLimitSec := some 0, maxTurns := some 5 }

def sessA : Session := (createSession [] 1000 7 paramsX caseX).1

def storeA : Store := (createSession [] 1000 7 paramsX caseX).2

def sessC4 : Session :=
  appendTransform (appendTransform sessA 1100 Role.user "hello") 1200 Role.user "more"

def opsC4 : List Op :=
  [.create 1000 7 paramsX caseX, .append 1100 7 .user "hello", .append 1200 7 .user "more"]

def opsC6 : List Op := [.create 999 8 paramsX caseX, .getS 42 7]

def sessMT0 : Session := (createSession [] 0 11 paramsMT0 caseX).1

def stMT0 : Store := (createSession [] 0 11 paramsMT0 caseX).2

def sessTL0 : Session := (createSession [] 0 12 paramsTL0 caseX).1

def stTL0 : Store := (createSession [] 0 12 paramsTL0 caseX).2

/-- A session that has performed both of `caseX`'s critical actions. -/
def sessDone : Session :=
  { sessA with actions := [⟨"ordered_ekg", 1005, none, none⟩, ⟨"gave_aspirin", 1010, none, none⟩] }

/-- An ended session that used exactly half of its 300 s time limit. -/
def sess8 : Session := { sessA with createdAt := 0, endedAt := some 150000 }

/-- A session with no submitted diagnosis but a user message naming the
primary diagnosis. -/
def sessionNoDiag : Session := { sessA with messages := [⟨.user, "nstemi"⟩] }

def sessA0 : Session := (createSession [] 0 7 paramsX caseX).1

/-- An ended session whose `updatedAt` is so old its TTL has also lapsed. -/
def storeEndedStale : Store := markEnded (createSession [] 0 7 paramsX caseX).2 0 7 none

/-- An ended session still within its TTL. -/
def storeEndedFresh : Store := markEnded (createSession [] 0 7 paramsX caseX).2 500 7 none

/-! ## The claims -/

/-- C1: the claim says a session with an absent/empty `submittedDiagnosis`
always scores `{total: 0, correctness: 0, intervention: 0}` and that scoring
never scans conversation text — but `scoreDiagnosis` (scoringRules.ts lines
50-52) falls back to the concatenated user messages whenever
`submittedDiagnosis` is falsy, contradicting its own doc comment ("Uses the
submitted diagnosis from the session, not conversation messages").  At this
input the fallback string matcher awards full diagnosis credit. -/
theorem scoreDiagnosis_scans_conversation_when_no_submission :
    sessionNoDiag.submittedDiagnosis = none ∧
    scoreDiagnosis sessionNoDiag caseX none none = ⟨20, 20, 0⟩ ∧
    (scoreDiagnosis sessionNoDiag caseX none none).total ≠ 0 := by decide

theorem markEnded_eq_some {st : Store} {id : ℕ} {s : Session} (now : ℕ) (d : Option String)
    (h : lookupS st id = some s) :
    markEnded st now id d = setStore st id (endSession s now d) := by
  unfold markEnded
  rw [h]

/-- C2 counterexample: `markEnded` never checks `isActive`, so a second call
at a later instant overwrites `endedAt` — after ending at 5000 the session
is inactive, yet calling `markEnded` again at 6000 moves `endedAt` to
6000. -/
theorem markEnded_second_call_overwrites_endedAt :
    ((lookupS (markEnded storeA 5000 7 (some "NSTEMI")) 7).map Session.isActive =
      some false) ∧
    ((lookupS (markEnded storeA 5000 7 (some "NSTEMI")) 7).map Session.endedAt =
      some (some 5000)) ∧
    ((lookupS (markEnded (markEnded storeA 5000 7 (some "NSTEMI")) 6000 7 none) 7).map
      Session.endedAt = some (some 6000)) := by decide

/-- C2 (amended): `markEnded` is a no-op only for an unknown id; on any
resident session — ended or not — it unconditionally sets `isActive =
false` and refreshes `endedAt`/`updatedAt` to the call time, so calling it
twice leaves `endedAt` at the second call's time, not the first's. -/
theorem markEnded_refreshes_existing_sessions (st : Store) (id n1 n2 : ℕ)
    (d1 d2 : Option String) :
    (lookupS st id = none → markEnded st n1 id d1 = st) ∧
    (∀ s, lookupS st id = some s →
      ∃ s', lookupS (markEnded (markEnded st n1 id d1) n2 id d2) id = some s' ∧
        s'.isActive = false ∧ s'.endedAt = some n2 ∧ s'.updatedAt = n2) := by
  constructor
  · intro h
    unfold markEnded
    rw [h]
  · intro s h
    have h2 : lookupS (markEnded st n1 id d1) id = some (endSession s n1 d1) := by
      rw [markEnded_eq_some n1 d1 h]
      exact lookupS_setStore_self st id _
    refine ⟨endSession (endSession s n1 d1) n2 d2, ?_, rfl, rfl, rfl⟩
    rw [markEnded_eq_some n2 d2 h2]
    exact lookupS_setStore_self _ id _

theorem markEnded_refreshes_existing_sessions_witness :
    ∃ s', lookupS (markEnded (markEnded storeA 5000 7 (some "NSTEMI")) 6000 7 none) 7 =
        some s' ∧ s'.isActive = false ∧ s'.endedAt = some 6000 ∧ s'.updatedAt = 6000 :=
  (markEnded_refreshes_existing_sessions storeA 7 5000 6000 (some "NSTEMI") none).2
    sessA (by decide)

/-- C3 counterexample: a session with `isActive = false` whose TTL has also
lapsed fails `appendMessage`/`recordAction` with `NotFound`, not
`SessionEnded` (the session is lazily evicted by the embedded `getSession`
read), so the claim's "always fails with a SessionEnded error" does not
hold for every inactive session. -/
theorem appendMessage_expired_ended_notFound :
    ((lookupS storeEndedStale 7).map Session.isActive = some false) ∧
    (appendMessage storeEndedStale 7200001 7 Role.user "hello").1 =
      .error .notFound ∧
    (appendMessage storeEndedStale 7200001 7 Role.user "hello").1 ≠
      .error .sessionEnded ∧
    (recordAction storeEndedStale 7200001 7 "ordered_ekg" none none).1 =
      .error .notFound := by decide

/-- C3 (amended): for every resident session with `isActive = false` that is
still within the TTL, both `appendMessage` and `recordAction` fail with
`SessionEnded` and leave the store (hence the session's messages, actions,
`currentTurn` and `updatedAt`) completely unchanged; once the TTL has also
lapsed they instead fail with `NotFound`. -/
theorem append_record_on_ended_session_rejected (st : Store) (now id : ℕ) (s : Session)
    (role : Role) (text a : String) (d r : Option String)
    (h : lookupS st id = some s) (hend : s.isActive = false)
    (httl : now - s.updatedAt ≤ DEFAULT_TTL_MS) :
    appendMessage st now id role text = (.error .sessionEnded, st) ∧
    recordAction st now id a d r = (.error .sessionEnded, st) :=
  ⟨appendMessage_ended_within_ttl h hend httl role text,
   recordAction_ended_within_ttl h hend httl a d r⟩

theorem append_record_on_ended_session_rejected_witness :
    appendMessage storeEndedFresh 1000 7 Role.user "hi" =
      (.error .sessionEnded, storeEndedFresh) ∧
    recordAction storeEndedFresh 1000 7 "ordered_ekg" none none =
      (.error .sessionEnded, storeEndedFresh) :=
  append_record_on_ended_session_rejected storeEndedFresh 1000 7
    (endSession sessA0 500 none) .user "hi" "ordered_ekg" none none
    (by decide) (by decide) (by decide)

/-- C4: in every store reachable through the operations, a session created
with `maxTurns = m ≥ 1` never holds more than `m` user messages; once the
`m`-th user message has been appended the session has `isActive = false`;
and any further `appendMessage` on an inactive session fails (with
`SessionEnded`, or `NotFound` after TTL expiry). -/
theorem maxTurns_cap_enforced (ops : List Op) (id : ℕ) (s : Session) (m : ℕ)
    (h : lookupS (runOps [] ops) id = some s)
    (hm : s.maxTurns = some m) (h1 : 1 ≤ m) :
    userMessageCount s.messages ≤ m ∧
    (userMessageCount s.messages = m → s.isActive = false) ∧
    (s.isActive = false → ∀ now text role,
      (appendMessage (runOps [] ops) now id role text).1 = .error .notFound ∨
      (appendMessage (runOps [] ops) now id role text).1 = .error .sessionEnded) := by
  obtain ⟨-, h2⟩ := storeInv_reachable ops id s h
  obtain ⟨hle, hcap⟩ := h2 m hm h1
  exact ⟨hle, hcap, fun hend now text role => appendMessage_inactive_fails h hend role text⟩

theorem maxTurns_cap_enforced_witness :
    userMessageCount sessC4.messages ≤ 2 ∧
    (userMessageCount sessC4.messages = 2 → sessC4.isActive = false) ∧
    (sessC4.isActive = false → ∀ now text role,
      (appendMessage (runOps [] opsC4) now 7 role text).1 = .error .notFound ∨
      (appendMessage (runOps [] opsC4) now 7 role text).1 = .error .sessionEnded) :=
  maxTurns_cap_enforced opsC4 7 sessC4 2 (by decide) (by decide) (by decide)

/-- C5: in every store state reachable through `createSession`,
`appendMessage`, `recordAction`, `markEnded`, `storeFeedback` (and
`getSession` reads and the background sweep), every resident session has
`currentTurn` equal to the number of its `role = user` messages. -/
theorem currentTurn_counts_user_messages (ops : List Op) (id : ℕ) (s : Session)
    (h : lookupS (runOps [] ops) id = some s) :
    s.currentTurn = userMessageCount s.messages :=
  (storeInv_reachable ops id s h).1

theorem currentTurn_counts_user_messages_witness :
    sessC4.currentTurn = userMessageCount sessC4.messages :=
  currentTurn_counts_user_messages opsC4 7 sessC4 (by decide)

/-- C6: `getSession` on an id whose `updatedAt` is older than the TTL
returns not-found and removes the session; afterwards the id is absent, and
it stays absent (so every later `getSession` also returns not-found) under
any further operations whose fresh `create` ids differ from it — which
`randomUUID()` guarantees. -/
theorem expired_session_no_resurrection (st : Store) (now id : ℕ) (s : Session)
    (ops : List Op)
    (h : lookupS st id = some s) (hexp : DEFAULT_TTL_MS < now - s.updatedAt)
    (hfresh : ∀ op ∈ ops, createdId op ≠ some id) :
    getSession st now id = (none, removeStore st id) ∧
    lookupS (removeStore st id) id = none ∧
    (∀ now2, (getSession (runOps (removeStore st id) ops) now2 id).1 = none) := by
  refine ⟨getSession_expired h hexp, lookupS_removeStore_self st id, fun now2 => ?_⟩
  have habs := lookupS_runOps_none ops (removeStore st id) hfresh
    (lookupS_removeStore_self st id)
  unfold getSession
  rw [habs]

theorem expired_session_no_resurrection_witness :
    (getSession (runOps (removeStore storeA 7) opsC6) 9999999 7).1 = none :=
  (expired_session_no_resurrection storeA 7201001 7 sessA opsC6
    (by decide) (by decide) (by decide)).2.2 9999999

/-- C7: `scoreCriticalActions` awards the full 25 points when the case
defines no critical actions; otherwise its score is
`round((performed / total) × 25)`, so performing none of them scores 0 and
performing all of them scores exactly 25 with no rounding residue. -/
theorem scoreCriticalActions_rounding_formula (s : Session) (cd : MedicalCase) :
    (cd.criticalActions = [] → (scoreCriticalActions s cd).score = 25) ∧
    (cd.criticalActions ≠ [] →
      (scoreCriticalActions s cd).score =
        jsRound (((scoreCriticalActions s cd).performed.length : ℚ) /
          (cd.criticalActions.length : ℚ) * 25)) ∧
    ((scoreCriticalActions s cd).performed = [] → cd.criticalActions ≠ [] →
      (scoreCriticalActions s cd).score = 0) ∧
    ((scoreCriticalActions s cd).performed.length = cd.criticalActions.length →
      (scoreCriticalActions s cd).score = 25) := by
  refine ⟨fun h => by rw [scoreCriticalActions_empty s h],
    fun h => scoreCriticalActions_score_eq s h, ?_, ?_⟩
  · intro hp h
    rw [scoreCriticalActions_score_eq s h, hp]
    norm_num [jsRound]
  · intro hl
    by_cases h : cd.criticalActions = []
    · rw [scoreCriticalActions_empty s h]
    · rw [scoreCriticalActions_score_eq s h, hl]
      have hN : ((cd.criticalActions.length : ℚ)) ≠ 0 :=
        Nat.cast_ne_zero.mpr (fun hh => h (List.length_eq_zero.mp hh))
      rw [div_self hN, one_mul]
      norm_num [jsRound]

theorem scoreCriticalActions_rounding_formula_witness :
    (scoreCriticalActions sessDone caseX).score = 25 :=
  (scoreCriticalActions_rounding_formula sessDone caseX).2.2.2 (by decide)

/-- C8: for every session with a positive effective time limit,
`scoreEfficiency` is the sum of the spec's step function of
`duration / timeLimit` and the action-count bonus, capped at 30; a duration
at exactly 50% of the limit takes the 20-point step, and one at 200% takes
the 0-point step. -/
theorem scoreEfficiency_step_function (s : Session) (now : ℕ) (h : 0 < getTimeLimit s) :
    scoreEfficiency s now =
      min (specTimeComponent (getSessionDuration s now) (getTimeLimit s) +
        specActionBonus s.actions.length) 30 ∧
    (2 * getSessionDuration s now = getTimeLimit s →
      specTimeComponent (getSessionDuration s now) (getTimeLimit s) = 20) ∧
    (getSessionDuration s now = 2 * getTimeLimit s →
      specTimeComponent (getSessionDuration s now) (getTimeLimit s) = 0) := by
  have h0 : getTimeLimit s ≠ 0 := by omega
  refine ⟨scoreEfficiency_eq_spec s now h0, ?_, ?_⟩
  · intro h2
    have hd : (0:ℕ) < getSessionDuration s now := by omega
    have hd' : ((getSessionDuration s now : ℚ)) ≠ 0 := by
      exact_mod_cast hd.ne'
    have hr : ((getSessionDuration s now : ℚ)) / ((getTimeLimit s : ℚ)) = 1/2 := by
      rw [← h2]
      push_cast
      rw [div_eq_iff (by exact mul_ne_zero two_ne_zero hd')]
      ring
    unfold specTimeComponent
    rw [hr]
    norm_num
  · intro h2
    have h0' : ((getTimeLimit s : ℚ)) ≠ 0 := Nat.cast_ne_zero.mpr h0
    have hr : ((getSessionDuration s now : ℚ)) / ((getTimeLimit s : ℚ)) = 2 := by
      rw [h2]
      push_cast
      rw [mul_div_assoc, div_self h0', mul_one]
    unfold specTimeComponent
    rw [hr]
    norm_num

theorem scoreEfficiency_step_function_witness :
    scoreEfficiency sess8 0 =
      min (specTimeComponent (getSessionDuration sess8 0) (getTimeLimit sess8) +
        specActionBonus sess8.actions.length) 30 ∧
    specTimeComponent (getSessionDuration sess8 0) (getTimeLimit sess8) = 20 :=
  ⟨(scoreEfficiency_step_function sess8 0 (by decide)).1,
   (scoreEfficiency_step_function sess8 0 (by decide)).2.1 (by decide)⟩

/-- C9: for every session, case and oracle outcome, `analyzeSession`'s
`summaryScore` equals `min(100, round(diagnosis + criticalActions +
communication + efficiency))`, each of the four sub-scores is non-negative,
and the summary score is an integer in [0, 100]. -/
theorem analyzeSession_summaryScore_bounds (s : Session) (cd : MedicalCase)
    (od : Option DiagLabel) (oi : Option IntervLabel) (now : ℕ) :
    (analyzeSession s cd od oi now).summaryScore =
      min 100 (jsRound (((calculateScoringContext s cd od oi now).diagnosisScore : ℚ) +
        ((calculateScoringContext s cd od oi now).criticalActionsScore : ℚ) +
        ((calculateScoringContext s cd od oi now).communicationScore : ℚ) +
        ((calculateScoringContext s cd od oi now).efficiencyScore : ℚ))) ∧
    0 ≤ (calculateScoringContext s cd od oi now).diagnosisScore ∧
    0 ≤ (calculateScoringContext s cd od oi now).criticalActionsScore ∧
    0 ≤ (calculateScoringContext s cd od oi now).communicationScore ∧
    0 ≤ (calculateScoringContext s cd od oi now).efficiencyScore ∧
    0 ≤ (analyzeSession s cd od oi now).summaryScore ∧
    (analyzeSession s cd od oi now).summaryScore ≤ 100 := by
  have hd : 0 ≤ (calculateScoringContext s cd od oi now).diagnosisScore :=
    scoreDiagnosis_total_nonneg s cd od oi
  have hc : 0 ≤ (calculateScoringContext s cd od oi now).criticalActionsScore :=
    scoreCriticalActions_score_nonneg s cd
  have hm : 0 ≤ (calculateScoringContext s cd od oi now).communicationScore :=
    scoreCommunication_nonneg s
  have he : 0 ≤ (calculateScoringContext s cd od oi now).efficiencyScore :=
    scoreEfficiency_nonneg s now
  have hsum : (analyzeSession s cd od oi now).summaryScore =
      min 100 (jsRound (((calculateScoringContext s cd od oi now).diagnosisScore : ℚ) +
        ((calculateScoringContext s cd od oi now).criticalActionsScore : ℚ) +
        ((calculateScoringContext s cd od oi now).communicationScore : ℚ) +
        ((calculateScoringContext s cd od oi now).efficiencyScore : ℚ))) := rfl
  refine ⟨hsum, hd, hc, hm, he, ?_, ?_⟩
  · rw [hsum]
    refine le_min (by norm_num) (jsRound_nonneg ?_)
    have hd' : (0:ℚ) ≤ ((calculateScoringContext s cd od oi now).diagnosisScore : ℚ) := by
      exact_mod_cast hd
    have hc' : (0:ℚ) ≤ ((calculateScoringContext s cd od oi now).criticalActionsScore : ℚ) := by
      exact_mod_cast hc
    have hm' : (0:ℚ) ≤ ((calculateScoringContext s cd od oi now).communicationScore : ℚ) := by
      exact_mod_cast hm
    have he' : (0:ℚ) ≤ ((calculateScoringContext s cd od oi now).efficiencyScore : ℚ) := by
      exact_mod_cast he
    linarith
  · rw [hsum]
    exact min_le_left _ _

/-- C10: a session created with `maxTurns = 0` or with `timeLimitSec = 0`
treats that zero cap as absent, because each check tests the cap's JS
truthiness before comparing.  Each cap is handled on its own: with
`maxTurns = 0` the turn-limit check of `appendMessage` never deactivates
the session (for any role and time), and a user append succeeds, bumps
`currentTurn` and leaves the session active whenever no other, independent
check interferes; with `timeLimitSec = 0` the elapsed-time checks of
`getSession` and of the background sweep never end the session, however
much time has passed. -/
theorem zero_caps_never_auto_end (st : Store) (now id : ℕ) (s : Session) (text : String)
    (h : lookupS st id = some s) (httl : now - s.updatedAt ≤ DEFAULT_TTL_MS) :
    (s.maxTurns = some 0 → ∀ (n : ℕ) (role : Role) (t : String),
      (appendTransform s n role t).isActive = s.isActive) ∧
    (s.maxTurns = some 0 → s.isActive = true →
      (optTruthy s.timeLimitSec = false ∨
        (now - s.createdAt) / 1000 ≤ s.timeLimitSec.getD 0) →
      appendMessage st now id Role.user text =
        (.ok (), setStore st id (appendTransform s now Role.user text)) ∧
      (appendTransform s now Role.user text).isActive = true ∧
      (appendTransform s now Role.user text).currentTurn = s.currentTurn + 1) ∧
    (s.timeLimitSec = some 0 → getSession st now id = (some s, st)) ∧
    (s.timeLimitSec = some 0 → (st.map Prod.fst).Nodup →
      lookupS (cleanupExpiredSessions st now) id = some s) :=
  ⟨fun hmt => appendTransform_keeps_active_of_zero_maxTurns hmt,
   fun hmt hact hnt => appendMessage_zero_maxTurns text h hact hmt httl hnt,
   fun htl => getSession_zero_timeLimit h httl htl,
   fun htl hnd => lookupS_cleanup_keep now hnd h httl htl⟩

theorem zero_caps_never_auto_end_witness :
    (appendMessage stMT0 100 11 Role.user "q" =
      (.ok (), setStore stMT0 11 (appendTransform sessMT0 100 Role.user "q")) ∧
     (appendTransform sessMT0 100 Role.user "q").isActive = true ∧
     (appendTransform sessMT0 100 Role.user "q").currentTurn = sessMT0.currentTurn + 1) ∧
    getSession stTL0 999999 12 = (some sessTL0, stTL0) ∧
    lookupS (cleanupExpiredSessions stTL0 999999) 12 = some sessTL0 :=
  ⟨(zero_caps_never_auto_end stMT0 100 11 sessMT0 "q" (by decide) (by decide)).2.1
      (by decide) (by decide) (by decide),
   (zero_caps_never_auto_end stTL0 999999 12 sessTL0 "x" (by decide) (by decide)).2.2.1
      (by decide),
   (zero_caps_never_auto_end stTL0 999999 12 sessTL0 "x" (by decide) (by decide)).2.2.2
      (by decide) (by decide)⟩
